import Mathlib

/-!
Shallow embedding of the virtio-net frontend datapath of
`src/lib/pci_virtio_net.c` (hyperkit/xhyve): device state, reset,
feature negotiation, the receive handler, the transmit chain
processing, and byte-level config-space writes.

Machine integers are modelled as `Nat`/`Int` with explicit reduction
mod 2^w where the C arithmetic can wrap.  Calls into the external
queue adapter (`vq_getchain`, `vq_retchain`, `vq_relchain`,
`vq_endchains`) and the network backend (`netbe_recv`, `netbe_send`,
`netbe_set_cap`) are recorded as events in a trace; `assert` failures
are modelled as a distinguished abort outcome.
-/

namespace VtNet

/-- Value of `#define VTNET_MAXSEGS 256`. -/
def VTNET_MAXSEGS : Nat := 256

/-- Size of the static `dummybuf` in `pci_vtnet_rx_discard`:
`static uint8_t dummybuf[65536+64]`. -/
def DUMMYBUF_SIZE : Nat := 65536 + 64

/-- Modelled from the spec: `sizeof(struct virtio_net_rxhdr)` comes from
`virtio.h`, which is not among the provided sources.  The spec fixes
`rx_header_len : {10, 12} bytes`, the long (merged-buffer) form being the
one installed together with `merge_buffers = true`, i.e. 12 bytes. -/
def VIRTIO_NET_RXHDR_SIZE : Nat := 12

/-- Modelled from the spec: the bit position of `VIRTIO_NET_F_MRG_RXBUF`
(the merged-receive-buffer capability bit) is defined in `virtio.h`,
not among the provided sources; the standard virtio value is bit 15.
Only presence/absence of the bit matters to the claims. -/
def MRG_RXBUF_BIT : Nat := 15

/-- The fields of `struct pci_vtnet_softc` that the datapath claims are
about (locks, thread handles and the embedded generic-virtio softc are
external collaborators). -/
structure Softc where
  vsc_rx_ready : Bool
  resetting : Bool
  vsc_features : Nat
  rx_vhdrlen : Nat
  rx_merge : Bool
  tx_in_progress : Bool

/-- The datapath-state projection the reset/attach claims compare:
(`vsc_rx_ready`, `rx_merge`, `rx_vhdrlen`, `resetting`). -/
def datapath (s : Softc) : Bool × Bool × Nat × Bool :=
  (s.vsc_rx_ready, s.rx_merge, s.rx_vhdrlen, s.resetting)

/-- Datapath fields as established by `pci_vtnet_init`: the softc is
`calloc`ed (all fields zero), then `sc->resetting = 0`,
`sc->rx_merge = 1`, `sc->rx_vhdrlen = sizeof(struct virtio_net_rxhdr)`,
`sc->tx_in_progress = 0`; `vsc_rx_ready` and `vsc_features` keep their
zero initialisation. -/
def initSoftc : Softc :=
  { vsc_rx_ready := false
    resetting := false
    vsc_features := 0
    rx_vhdrlen := VIRTIO_NET_RXHDR_SIZE
    rx_merge := true
    tx_in_progress := false }

/-- State effect of `pci_vtnet_reset` (the tx/rx quiescence waits and the
`vi_reset_dev` call into the generic virtio layer are external): set
`resetting = 1`, then `vsc_rx_ready = 0`, `rx_merge = 1`,
`rx_vhdrlen = sizeof(struct virtio_net_rxhdr)`, and finally
`resetting = 0`. -/
def pci_vtnet_reset (s : Softc) : Softc :=
  let s1 := { s with resetting := true }
  let s2 := { s1 with
      vsc_rx_ready := false
      rx_merge := true
      rx_vhdrlen := VIRTIO_NET_RXHDR_SIZE }
  { s2 with resetting := false }

/-- Result of `pci_vtnet_neg_features`: the updated softc plus the two
arguments passed on to `netbe_set_cap(sc->vsc_be, negotiated_features,
sc->rx_vhdrlen)`. -/
structure NegFeaturesResult where
  state : Softc
  beFeatures : Nat
  beVhdrlen : Nat

/-- Function `pci_vtnet_neg_features`: store the negotiated features; if
`VIRTIO_NET_F_MRG_RXBUF` is absent, clear `rx_merge` and do
`sc->rx_vhdrlen -= 2` (unsigned 32-bit arithmetic, hence mod 2^32);
then call `netbe_set_cap` with the features and the resulting
`rx_vhdrlen`. -/
def pci_vtnet_neg_features (s : Softc) (negotiated_features : Nat) :
    NegFeaturesResult :=
  let s1 := { s with vsc_features := negotiated_features }
  let s2 :=
    if ¬ negotiated_features.testBit MRG_RXBUF_BIT then
      { s1 with
          rx_merge := false
          rx_vhdrlen := (s1.rx_vhdrlen + (2 ^ 32 - 2)) % 2 ^ 32 }
    else s1
  ⟨s2, negotiated_features, s2.rx_vhdrlen⟩

/-! ### Receive path -/

/-- A guest descriptor chain on the RX avail ring, as seen through
`vq_getchain`: the used-ring index it reports through `*pidx` and the
segment count `n` it returns (`-1` when the guest chain overflows the
caller's iov capacity). -/
structure Chain where
  idx : Nat
  nseg : Int

/-- What the backend produces on each chain for a given `netbe_recv`
call: the byte length, `0` for "no data", negative for a hard error.
The backend is a queue of such results, one consumed per call; an
exhausted queue reads as "no data". -/
def netbe_recv : List Int → Int × List Int
  | [] => (0, [])
  | r :: rest => (r, rest)

/-- One external call made by the receive handler, in order. -/
inductive RxEvent where
  /-- Call `vq_getchain(vq, &idx, iov, maxSegs, NULL)` returned `n`. -/
  | getchain (maxSegs : Nat) (n : Int)
  /-- the `assert(n >= 1 && n <= VTNET_MAXSEGS)` failed (process abort). -/
  | assertFailed
  /-- Call `netbe_recv(sc->vsc_be, iov, n)` returned `res`. -/
  | recv (n : Int) (res : Int)
  /-- Call to `pci_vtnet_rx_discard`: one `netbe_recv` into the static
  `dummybuf` of `bufLen` bytes. -/
  | discard (bufLen : Nat)
  /-- Call `vq_retchain(vq)`. -/
  | retchain
  /-- Call `vq_relchain(vq, idx, len)`. -/
  | relchain (idx : Nat) (len : Int)
  /-- Call `vq_endchains(vq, force)`. -/
  | endchains (force : Bool)

/-- How the handler disposed of one pulled chain. -/
inductive ChainDisp where
  /-- published to the guest via `vq_relchain` with byte length `len`. -/
  | completed (len : Int)
  /-- returned unused to the queue via `vq_retchain`. -/
  | returnedUnused
  /-- neither released nor returned (hard backend error: `break`). -/
  | dropped

/-- Book-keeping for one chain pulled by `vq_getchain`: the backend
result it saw (`none` when the segment-count assert aborted first) and
its disposition (`none` likewise). -/
structure ChainRecord where
  chain : Chain
  beResult : Option Int
  disp : Option ChainDisp

/-- Result of one `pci_vtnet_rx` invocation. -/
structure RxRun where
  events : List RxEvent
  records : List ChainRecord
  fatal : Bool

/-- The `do { ... } while (vq_has_descs(vq))` fill loop of
`pci_vtnet_rx`, followed by the trailing `vq_endchains(vq, 1)`.
`chains` is the RX avail ring content, `be` the pending backend
results.  Each iteration: pull a chain (`vq_getchain` with
`VTNET_MAXSEGS`), `assert(n >= 1 && n <= VTNET_MAXSEGS)`, receive into
it; `len < 0` breaks out of the loop (reaching the forced
`vq_endchains`), `len == 0` returns the chain and ends with an
unforced `vq_endchains`, otherwise the chain is released with `len`
and the loop continues while descriptors remain. -/
def rxLoop : List Chain → List Int → RxRun
  | [], _be => ⟨[.endchains true], [], false⟩
  | c :: rest, be =>
    if 1 ≤ c.nseg ∧ c.nseg ≤ (VTNET_MAXSEGS : Int) then
      let (len, be') := netbe_recv be
      if len < 0 then
        ⟨[.getchain VTNET_MAXSEGS c.nseg, .recv c.nseg len, .endchains true],
         [⟨c, some len, some .dropped⟩], false⟩
      else if len = 0 then
        ⟨[.getchain VTNET_MAXSEGS c.nseg, .recv c.nseg len, .retchain,
          .endchains false],
         [⟨c, some len, some .returnedUnused⟩], false⟩
      else
        let r := rxLoop rest be'
        ⟨.getchain VTNET_MAXSEGS c.nseg :: .recv c.nseg len ::
           .relchain c.idx len :: r.events,
         ⟨c, some len, some (.completed len)⟩ :: r.records,
         r.fatal⟩
    else
      ⟨[.getchain VTNET_MAXSEGS c.nseg, .assertFailed],
       [⟨c, none, none⟩], true⟩

/-- Function `pci_vtnet_rx`: if `!sc->vsc_rx_ready || sc->resetting`, discard one
datagram into the static scratch buffer and return; if the RX queue
has no descriptors, discard and `vq_endchains(vq, 1)`; otherwise run
the fill loop. -/
def pci_vtnet_rx (rx_ready resetting : Bool) (chains : List Chain)
    (be : List Int) : RxRun :=
  if !rx_ready || resetting then
    ⟨[.discard DUMMYBUF_SIZE], [], false⟩
  else if chains.isEmpty then
    ⟨[.discard DUMMYBUF_SIZE, .endchains true], [], false⟩
  else
    rxLoop chains be

/-! ### Transmit path -/

/-- A guest descriptor chain on the TX avail ring: the index reported
through `*pidx`, the segment count `vq_getchain` returns, and the
`iov_len` of each filled segment. -/
structure TxChain where
  idx : Nat
  nseg : Int
  segLens : List Nat

/-- One external call made by `pci_vtnet_proctx`. -/
inductive TxEvent where
  /-- Call `vq_getchain(vq, &idx, iov, maxSegs, NULL)` returned `n`. -/
  | getchain (maxSegs : Nat) (n : Int)
  /-- the `assert(n >= 1 && n <= VTNET_MAXSEGS)` failed (process abort). -/
  | assertFailed
  /-- Call `netbe_send(sc->vsc_be, iov, n, len, 0)`. -/
  | send (n : Int) (len : Nat)
  /-- Call `vq_relchain(vq, idx, len)`. -/
  | relchain (idx : Nat) (len : Nat)

/-- Result of one `pci_vtnet_proctx` call. -/
structure TxRun where
  events : List TxEvent
  fatal : Bool

/-- Function `pci_vtnet_proctx`: pull one chain (`vq_getchain` with
`VTNET_MAXSEGS`), `assert(n >= 1 && n <= VTNET_MAXSEGS)`, sum the `n`
segment lengths into a `uint32_t` (mod 2^32), hand the whole chain to
`netbe_send` as one call, then `vq_relchain(vq, idx, len)`. -/
def pci_vtnet_proctx (c : TxChain) : TxRun :=
  if 1 ≤ c.nseg ∧ c.nseg ≤ (VTNET_MAXSEGS : Int) then
    let len := (c.segLens.take c.nseg.toNat).sum % 2 ^ 32
    ⟨[.getchain VTNET_MAXSEGS c.nseg, .send c.nseg len,
      .relchain c.idx len], false⟩
  else
    ⟨[.getchain VTNET_MAXSEGS c.nseg, .assertFailed], true⟩

/-! ### Attach (init) -/

/-- Outcome of `pci_vtnet_init`: either the device registered (function
returned 0) with the given guest-visible `status` config register, or
initialisation failed (non-zero return). -/
inductive InitResult where
  | registered (status : Nat)
  | failed

/-- Control flow of `pci_vtnet_init` relevant to attach-time outcomes:
a bad MAC option string makes it return the parse error; a failing
`netbe_init` only logs a warning; `sc->vsc_config.status =
(opts == NULL || sc->vsc_be)`; a failing `vi_intr_init` returns 1;
otherwise the device registers. -/
def pci_vtnet_init (opts_given mac_opt_given mac_parse_ok be_open_ok
    intr_init_ok : Bool) : InitResult :=
  if opts_given && mac_opt_given && !mac_parse_ok then
    .failed
  else
    let be_opened := opts_given && be_open_ok
    let status : Nat := if !opts_given || be_opened then 1 else 0
    if !intr_init_ok then .failed
    else .registered status

/-! ### Config-space write -/

/-- Model of `memcpy(ptr, &value, size)` of a little-endian `uint32_t` into a
byte list, one byte per step: byte `i` of the destination window gets
`value / 256^i % 256`. -/
def storeLE (block : List Nat) (offset value : Nat) : Nat → List Nat
  | 0 => block
  | size + 1 =>
    storeLE (block.set offset (value % 256)) (offset + 1) (value / 256) size

/-- Byte size of the `mac` field of `struct virtio_net_config`. -/
def MAC_SIZE : Nat := 6

/-- Byte size of `struct virtio_net_config`
(`uint8_t mac[6]; uint16_t status; uint16_t max_virtqueue_pairs`). -/
def CONFIG_SIZE : Nat := 10

/-- Function `pci_vtnet_cfgwrite` over the 10-byte register block: inside the MAC
range (`offset < sizeof(sc->vsc_config.mac)`) it runs
`assert(offset + size <= sizeof(sc->vsc_config.mac))` — modelled as
`none` (process abort) when that fails — then memcpys `size` bytes of
`value` at `offset`; any other offset is silently ignored.  Both
non-aborting branches return 0 (success), modelled as `some` of the
resulting block. -/
def pci_vtnet_cfgwrite (block : List Nat) (offset size value : Nat) :
    Option (List Nat) :=
  if offset < MAC_SIZE then
    if offset + size ≤ MAC_SIZE then
      some (storeLE block offset value size)
    else
      none
  else
    some block

/-! ### Trace predicates -/

/-- Events that operate on the virtqueue. -/
def RxEvent.isQueueOp : RxEvent → Bool
  | .getchain _ _ => true
  | .retchain => true
  | .relchain _ _ => true
  | .endchains _ => true
  | _ => false

/-- Events that consume one pending backend datagram
(either a fill-loop `netbe_recv` or a discard `netbe_recv`). -/
def RxEvent.isBackendRecv : RxEvent → Bool
  | .recv _ _ => true
  | .discard _ => true
  | _ => false

/-- Queue operations that settle a pulled chain: `vq_relchain`
(publish completed) or `vq_retchain` (return unused). -/
def RxEvent.isCompletionOrReturn : RxEvent → Bool
  | .relchain _ _ => true
  | .retchain => true
  | _ => false

/-- Every `vq_getchain` call in the event requests at most
`VTNET_MAXSEGS` segments. -/
def RxEvent.getchainMaxOk : RxEvent → Bool
  | .getchain maxSegs _ => maxSegs = VTNET_MAXSEGS
  | _ => true

/-- Every `vq_getchain` call in the event requests at most
`VTNET_MAXSEGS` segments (transmit side). -/
def TxEvent.getchainMaxOk : TxEvent → Bool
  | .getchain maxSegs _ => maxSegs = VTNET_MAXSEGS
  | _ => true

/-- Dispositions that settled the chain with the queue
(completed or returned unused, as opposed to dropped). -/
def dispSettles : Option ChainDisp → Bool
  | some (.completed _) => true
  | some .returnedUnused => true
  | _ => false

/-! ### Theorems -/

/-- C2: after `pci_vtnet_reset` returns, the datapath state (rx-ready,
merge-buffers, rx header length, resetting flag) equals the state just
after attach: `vsc_rx_ready = false`, `rx_merge = true`, `rx_vhdrlen`
is the long 12-byte merged-buffer form, and `resetting` is back to 0. -/
theorem reset_restores_attach_datapath (s : Softc) :
    datapath (pci_vtnet_reset s) = datapath initSoftc ∧
    (pci_vtnet_reset s).vsc_rx_ready = false ∧
    (pci_vtnet_reset s).rx_merge = true ∧
    (pci_vtnet_reset s).rx_vhdrlen = 12 ∧
    (pci_vtnet_reset s).resetting = false := by
  simp [datapath, pci_vtnet_reset, initSoftc, VIRTIO_NET_RXHDR_SIZE]

/-- C3 (counterexample): after a reset, `rx_vhdrlen` is 12 — the
merged-buffer length — and not 10, the legacy-mode length the claim
states. -/
theorem reset_vhdrlen_not_legacy_cex :
    (pci_vtnet_reset initSoftc).rx_vhdrlen = 12 ∧
    ¬ (pci_vtnet_reset initSoftc).rx_vhdrlen = 10 := by
  decide

/-- C3 (amended): after `pci_vtnet_reset` returns,
`vsc_rx_ready = false`, `rx_merge = true`, and `rx_vhdrlen` equals the
merged-mode (12-byte) header length, not the legacy one. -/
theorem reset_quiescent_state (s : Softc) :
    (pci_vtnet_reset s).vsc_rx_ready = false ∧
    (pci_vtnet_reset s).rx_merge = true ∧
    (pci_vtnet_reset s).rx_vhdrlen = VIRTIO_NET_RXHDR_SIZE := by
  simp [pci_vtnet_reset]

/-- C4: `pci_vtnet_neg_features` stores the bits in `vsc_features`;
when the merged-receive-buffer bit is absent it clears `rx_merge` and
shrinks `rx_vhdrlen` by exactly 2 in the same call, so the resulting
header length is exactly 2 less than what the same call produces when
the bit is present; and it forwards the full negotiated bit set with
the resulting header length to `netbe_set_cap`. -/
theorem neg_features_spec (s : Softc) (bits : Nat)
    (h2 : 2 ≤ s.rx_vhdrlen) (hlt : s.rx_vhdrlen < 2 ^ 32) :
    (pci_vtnet_neg_features s bits).state.vsc_features = bits ∧
    (¬ bits.testBit MRG_RXBUF_BIT →
      (pci_vtnet_neg_features s bits).state.rx_merge = false ∧
      (pci_vtnet_neg_features s bits).state.rx_vhdrlen = s.rx_vhdrlen - 2) ∧
    (bits.testBit MRG_RXBUF_BIT →
      (pci_vtnet_neg_features s bits).state.rx_merge = s.rx_merge ∧
      (pci_vtnet_neg_features s bits).state.rx_vhdrlen = s.rx_vhdrlen) ∧
    (∀ bits', bits'.testBit MRG_RXBUF_BIT → ¬ bits.testBit MRG_RXBUF_BIT →
      (pci_vtnet_neg_features s bits').state.rx_vhdrlen =
        (pci_vtnet_neg_features s bits).state.rx_vhdrlen + 2) ∧
    (pci_vtnet_neg_features s bits).beFeatures = bits ∧
    (pci_vtnet_neg_features s bits).beVhdrlen =
      (pci_vtnet_neg_features s bits).state.rx_vhdrlen := by
  by_cases hb : bits.testBit MRG_RXBUF_BIT
  · refine ⟨?_, ?_, ?_, ?_, ?_, ?_⟩ <;>
      simp [pci_vtnet_neg_features, hb]
  · refine ⟨?_, ?_, ?_, ?_, ?_, ?_⟩
    · simp [pci_vtnet_neg_features, hb]
    · intro _
      refine ⟨by simp [pci_vtnet_neg_features, hb], ?_⟩
      simp [pci_vtnet_neg_features, hb]
      omega
    · intro h
      exact absurd h hb
    · intro bits' hb' _
      simp [pci_vtnet_neg_features, hb, hb']
      omega
    · simp [pci_vtnet_neg_features, hb]
    · simp [pci_vtnet_neg_features, hb]

/-- C4 witness: negotiating an empty feature set from the attach state
clears `rx_merge` and shrinks the header length from 12 to 10. -/
theorem neg_features_spec_witness :
    (pci_vtnet_neg_features initSoftc 0).state.rx_merge = false ∧
    (pci_vtnet_neg_features initSoftc 0).state.rx_vhdrlen =
      initSoftc.rx_vhdrlen - 2 :=
  (neg_features_spec initSoftc 0 (by decide) (by decide)).2.1 (by decide)

/-- C5: while `vsc_rx_ready` is false or `resetting` is true, the
receive handler performs no queue operation at all (in particular
publishes no completion), makes exactly one backend receive call —
the discard into the static scratch buffer of `65536+64` bytes — and
returns. -/
theorem rx_discard_before_ready (rx_ready resetting : Bool)
    (chains : List Chain) (be : List Int)
    (h : rx_ready = false ∨ resetting = true) :
    (pci_vtnet_rx rx_ready resetting chains be).events.filter
      RxEvent.isQueueOp = [] ∧
    ((pci_vtnet_rx rx_ready resetting chains be).events.countP
      RxEvent.isBackendRecv) = 1 ∧
    (pci_vtnet_rx rx_ready resetting chains be).events =
      [.discard DUMMYBUF_SIZE] ∧
    DUMMYBUF_SIZE ≥ 65536 + 64 ∧
    (pci_vtnet_rx rx_ready resetting chains be).records = [] := by
  rcases h with rfl | rfl
  · simp [pci_vtnet_rx, RxEvent.isQueueOp, RxEvent.isBackendRecv,
      DUMMYBUF_SIZE, List.countP, List.countP.go]
  · simp [pci_vtnet_rx, RxEvent.isQueueOp, RxEvent.isBackendRecv,
      DUMMYBUF_SIZE, List.countP, List.countP.go]

/-- C5 witness: a receive before the guest posted any buffer discards
one datagram into the scratch buffer. -/
theorem rx_discard_before_ready_witness :
    (pci_vtnet_rx false false [⟨0, 1⟩] [3]).events =
      [.discard DUMMYBUF_SIZE] :=
  (rx_discard_before_ready false false [⟨0, 1⟩] [3] (Or.inl rfl)).2.2.1

/-- C6: when attach attempts to open the backend (an option string was
given) and the open fails, the device still registers (init succeeds)
and the guest-visible status register reads 0 (link down). -/
theorem init_backend_unavailable_link_down (mac_opt_given mac_parse_ok : Bool)
    (hmac : mac_opt_given = true → mac_parse_ok = true) :
    pci_vtnet_init true mac_opt_given mac_parse_ok false true =
      InitResult.registered 0 := by
  cases mac_opt_given <;> cases mac_parse_ok <;>
    simp_all [pci_vtnet_init]

/-- C6 witness: attach with a backend name but no MAC override and a
failing backend open registers with link-down status. -/
theorem init_backend_unavailable_link_down_witness :
    pci_vtnet_init true false true false true = InitResult.registered 0 :=
  init_backend_unavailable_link_down false true (by simp)

theorem rxLoop_records_disp (chains : List Chain) (be : List Int) :
    ∀ r ∈ (rxLoop chains be).records, ∀ len : Int,
      r.beResult = some len →
        (0 < len → r.disp = some (ChainDisp.completed len)) ∧
        (len = 0 → r.disp = some ChainDisp.returnedUnused) ∧
        (len < 0 → r.disp = some ChainDisp.dropped) := by
  induction chains generalizing be with
  | nil =>
    intro r hr
    simp [rxLoop] at hr
  | cons c rest ih =>
    intro r hr len hlen
    by_cases hn : 1 ≤ c.nseg ∧ c.nseg ≤ (VTNET_MAXSEGS : Int)
    · obtain ⟨b, bs, hbe⟩ : ∃ b bs, netbe_recv be = (b, bs) := ⟨_, _, rfl⟩
      rcases lt_trichotomy b 0 with hb | hb | hb
      · have hrr : r = ⟨c, some b, some ChainDisp.dropped⟩ := by
          simp [rxLoop, hbe, hn, hb] at hr
          exact hr
        subst hrr
        simp only [ChainRecord.beResult, Option.some.injEq] at hlen
        subst hlen
        exact ⟨fun h => absurd h (by omega), fun h => absurd h (by omega),
          fun _ => rfl⟩
      · subst hb
        have hrr : r = ⟨c, some 0, some ChainDisp.returnedUnused⟩ := by
          simp [rxLoop, hbe, hn] at hr
          exact hr
        subst hrr
        simp only [ChainRecord.beResult, Option.some.injEq] at hlen
        subst hlen
        exact ⟨fun h => absurd h (by omega), fun _ => rfl,
          fun h => absurd h (by omega)⟩
      · have h1 : ¬ b < 0 := by omega
        have h2 : ¬ b = 0 := by omega
        rw [show rxLoop (c :: rest) be =
            ⟨RxEvent.getchain VTNET_MAXSEGS c.nseg :: RxEvent.recv c.nseg b ::
               RxEvent.relchain c.idx b :: (rxLoop rest bs).events,
             ⟨c, some b, some (ChainDisp.completed b)⟩ :: (rxLoop rest bs).records,
             (rxLoop rest bs).fatal⟩ by
          simp [rxLoop, hbe, hn, h1, h2]] at hr
        rcases List.mem_cons.mp hr with hrr | hrest
        · subst hrr
          simp only [ChainRecord.beResult, Option.some.injEq] at hlen
          subst hlen
          exact ⟨fun _ => rfl, fun h => absurd h h2,
            fun h => absurd h h1⟩
        · exact ih bs r hrest len hlen
    · have hrr : r = ⟨c, none, none⟩ := by
        simp [rxLoop, hn] at hr
        exact hr
      subst hrr
      simp at hlen

theorem rxLoop_completion_count (chains : List Chain) (be : List Int) :
    ((rxLoop chains be).events.countP RxEvent.isCompletionOrReturn) =
      ((rxLoop chains be).records.countP fun r => dispSettles r.disp) := by
  induction chains generalizing be with
  | nil =>
    simp [rxLoop, RxEvent.isCompletionOrReturn]
  | cons c rest ih =>
    by_cases hn : 1 ≤ c.nseg ∧ c.nseg ≤ (VTNET_MAXSEGS : Int)
    · obtain ⟨b, bs, hbe⟩ : ∃ b bs, netbe_recv be = (b, bs) := ⟨_, _, rfl⟩
      rcases lt_trichotomy b 0 with hb | hb | hb
      · simp [rxLoop, hbe, hn, hb, RxEvent.isCompletionOrReturn, dispSettles,
          List.countP_cons]
      · subst hb
        simp [rxLoop, hbe, hn, RxEvent.isCompletionOrReturn, dispSettles,
          List.countP_cons]
      · have h1 : ¬ b < 0 := by omega
        have h2 : ¬ b = 0 := by omega
        simp [rxLoop, hbe, hn, h1, h2, RxEvent.isCompletionOrReturn,
          dispSettles, List.countP_cons, ih bs]
    · simp [rxLoop, hn, RxEvent.isCompletionOrReturn, dispSettles,
        List.countP_cons]

theorem rxLoop_getchain_max (chains : List Chain) (be : List Int) :
    ((rxLoop chains be).events.all RxEvent.getchainMaxOk) = true := by
  induction chains generalizing be with
  | nil =>
    simp [rxLoop, RxEvent.getchainMaxOk]
  | cons c rest ih =>
    by_cases hn : 1 ≤ c.nseg ∧ c.nseg ≤ (VTNET_MAXSEGS : Int)
    · obtain ⟨b, bs, hbe⟩ : ∃ b bs, netbe_recv be = (b, bs) := ⟨_, _, rfl⟩
      rcases lt_trichotomy b 0 with hb | hb | hb
      · simp [rxLoop, hbe, hn, hb, RxEvent.getchainMaxOk]
      · subst hb
        simp [rxLoop, hbe, hn, RxEvent.getchainMaxOk]
      · have h1 : ¬ b < 0 := by omega
        have h2 : ¬ b = 0 := by omega
        simp [rxLoop, hbe, hn, h1, h2, RxEvent.getchainMaxOk, ih bs]
    · simp [rxLoop, hn, RxEvent.getchainMaxOk]

theorem rxLoop_dropped_forces_flush (chains : List Chain) (be : List Int)
    (h : ∃ r ∈ (rxLoop chains be).records, r.disp = some ChainDisp.dropped) :
    (rxLoop chains be).events.getLast? = some (RxEvent.endchains true) := by
  induction chains generalizing be with
  | nil =>
    simp [rxLoop] at h
  | cons c rest ih =>
    by_cases hn : 1 ≤ c.nseg ∧ c.nseg ≤ (VTNET_MAXSEGS : Int)
    · obtain ⟨b, bs, hbe⟩ : ∃ b bs, netbe_recv be = (b, bs) := ⟨_, _, rfl⟩
      rcases lt_trichotomy b 0 with hb | hb | hb
      · simp [rxLoop, hbe, hn, hb]
      · subst hb
        simp [rxLoop, hbe, hn] at h
      · have h1 : ¬ b < 0 := by omega
        have h2 : ¬ b = 0 := by omega
        have hsh : rxLoop (c :: rest) be =
            ⟨RxEvent.getchain VTNET_MAXSEGS c.nseg :: RxEvent.recv c.nseg b ::
               RxEvent.relchain c.idx b :: (rxLoop rest bs).events,
             ⟨c, some b, some (ChainDisp.completed b)⟩ :: (rxLoop rest bs).records,
             (rxLoop rest bs).fatal⟩ := by
          simp [rxLoop, hbe, hn, h1, h2]
        rw [hsh] at h ⊢
        have hrest : ∃ r ∈ (rxLoop rest bs).records,
            r.disp = some ChainDisp.dropped := by
          rcases h with ⟨r, hr, hd⟩
          rcases List.mem_cons.mp hr with hrr | hmem
          · subst hrr
            simp at hd
          · exact ⟨r, hmem, hd⟩
        have htail := ih bs hrest
        rcases hE : (rxLoop rest bs).events with _ | ⟨e, es⟩
        · rw [hE] at htail
          simp at htail
        · rw [hE] at htail
          simpa [List.getLast?_cons_cons] using htail
    · simp [rxLoop, hn] at h

/-- C1 (counterexample): when the backend returns a hard error (-1) on
a pulled chain, the receive handler neither publishes the chain
completed nor returns it unused — the chain is dropped, so "exactly
one of the two occurs" fails in the negative-result case. -/
theorem rx_exactly_once_cex :
    (pci_vtnet_rx true false [⟨0, 1⟩] [-1]).records =
      [⟨⟨0, 1⟩, some (-1), some ChainDisp.dropped⟩] ∧
    ((pci_vtnet_rx true false [⟨0, 1⟩] [-1]).events.filter
      RxEvent.isCompletionOrReturn) = [] :=
  ⟨rfl, rfl⟩

/-- C1 (amended): every chain pulled by the receive handler gets
exactly one disposition, determined by the backend result: a positive
result publishes the chain completed with that byte length, a zero
result returns it unused, and a negative (hard-error) result drops it
— neither completed nor returned.  The trace contains exactly one
settling queue operation (`vq_relchain`/`vq_retchain`) per
completed-or-returned chain, so completion and return never both
happen. -/
theorem rx_chain_disposition (rx_ready resetting : Bool)
    (chains : List Chain) (be : List Int) :
    (∀ r ∈ (pci_vtnet_rx rx_ready resetting chains be).records,
      ∀ len : Int, r.beResult = some len →
        (0 < len → r.disp = some (ChainDisp.completed len)) ∧
        (len = 0 → r.disp = some ChainDisp.returnedUnused) ∧
        (len < 0 → r.disp = some ChainDisp.dropped)) ∧
    ((pci_vtnet_rx rx_ready resetting chains be).events.countP
        RxEvent.isCompletionOrReturn =
      (pci_vtnet_rx rx_ready resetting chains be).records.countP
        fun r => dispSettles r.disp) := by
  by_cases h1 : (!rx_ready || resetting) = true
  · unfold pci_vtnet_rx
    rw [if_pos h1]
    simp [RxEvent.isCompletionOrReturn]
  · by_cases h2 : chains.isEmpty = true
    · unfold pci_vtnet_rx
      rw [if_neg h1, if_pos h2]
      simp [RxEvent.isCompletionOrReturn]
    · unfold pci_vtnet_rx
      rw [if_neg h1, if_neg h2]
      exact ⟨rxLoop_records_disp chains be, rxLoop_completion_count chains be⟩

/-- C1 witness: a chain filled with a 5-byte datagram is published
completed with length 5. -/
theorem rx_chain_disposition_witness :
    (ChainRecord.mk ⟨0, 1⟩ (some 5) (some (ChainDisp.completed 5))).disp =
      some (ChainDisp.completed 5) :=
  ((rx_chain_disposition true false [⟨0, 1⟩] [5]).1
    (ChainRecord.mk ⟨0, 1⟩ (some 5) (some (ChainDisp.completed 5)))
    (by exact List.mem_singleton.mpr rfl) 5 rfl).1 (by decide)

/-- C7 (counterexample): on a hard backend error the handler breaks
out of the fill loop but then still executes the trailing
`vq_endchains(vq, 1)` — a forced interrupt flush — so "exits the fill
loop without forcing an interrupt flush" fails on the code. -/
theorem rx_hard_error_flush_cex :
    (pci_vtnet_rx true false [⟨7, 2⟩] [-1]).events =
      [RxEvent.getchain 256 2, RxEvent.recv 2 (-1),
       RxEvent.endchains true] ∧
    (pci_vtnet_rx true false [⟨7, 2⟩] [-1]).events.getLast? =
      some (RxEvent.endchains true) :=
  ⟨rfl, rfl⟩

/-- C7 (amended): whenever a receive round drops a chain on a negative
backend result, the handler's last external call is the forced
interrupt flush `vq_endchains(vq, 1)` — the same forced flush as the
normal ring-exhausted exit — covering the chains already completed in
that call. -/
theorem rx_hard_error_forces_flush (rx_ready resetting : Bool)
    (chains : List Chain) (be : List Int)
    (h : ∃ r ∈ (pci_vtnet_rx rx_ready resetting chains be).records,
      r.disp = some ChainDisp.dropped) :
    (pci_vtnet_rx rx_ready resetting chains be).events.getLast? =
      some (RxEvent.endchains true) := by
  by_cases h1 : (!rx_ready || resetting) = true
  · unfold pci_vtnet_rx at h
    rw [if_pos h1] at h
    simp at h
  · by_cases h2 : chains.isEmpty = true
    · unfold pci_vtnet_rx at h
      rw [if_neg h1, if_pos h2] at h
      simp at h
    · unfold pci_vtnet_rx at h ⊢
      rw [if_neg h1, if_neg h2] at h ⊢
      exact rxLoop_dropped_forces_flush chains be h

/-- C7 amended witness: a round whose second chain hits a hard error
ends with the forced flush. -/
theorem rx_hard_error_forces_flush_witness :
    (pci_vtnet_rx true false [⟨1, 3⟩, ⟨2, 2⟩] [4, -2]).events.getLast? =
      some (RxEvent.endchains true) :=
  rx_hard_error_forces_flush true false [⟨1, 3⟩, ⟨2, 2⟩] [4, -2]
    ⟨⟨⟨2, 2⟩, some (-2), some ChainDisp.dropped⟩,
     by exact List.Mem.tail _ (List.Mem.head _), rfl⟩

/-- C9: both datapaths pull chains requesting at most `VTNET_MAXSEGS`
(256) segments, and a pulled chain whose reported segment count lies
outside `1 ≤ n ≤ 256` trips the `assert` — a fatal abort — without
being processed (no backend call, no completion), while an in-range
transmit chain is processed without the abort. -/
theorem datapath_segment_bound (rx_ready resetting : Bool)
    (chains : List Chain) (be : List Int) (c : TxChain)
    (idx : Nat) (n : Int) (rest : List Chain) (be2 : List Int) :
    ((pci_vtnet_rx rx_ready resetting chains be).events.all
      RxEvent.getchainMaxOk) = true ∧
    ((pci_vtnet_proctx c).events.all TxEvent.getchainMaxOk) = true ∧
    (¬ (1 ≤ n ∧ n ≤ (VTNET_MAXSEGS : Int)) →
      rxLoop (⟨idx, n⟩ :: rest) be2 =
        ⟨[RxEvent.getchain VTNET_MAXSEGS n, RxEvent.assertFailed],
         [⟨⟨idx, n⟩, none, none⟩], true⟩) ∧
    (¬ (1 ≤ c.nseg ∧ c.nseg ≤ (VTNET_MAXSEGS : Int)) →
      pci_vtnet_proctx c =
        ⟨[TxEvent.getchain VTNET_MAXSEGS c.nseg, TxEvent.assertFailed],
         true⟩) ∧
    ((1 ≤ c.nseg ∧ c.nseg ≤ (VTNET_MAXSEGS : Int)) →
      (pci_vtnet_proctx c).fatal = false) := by
  refine ⟨?_, ?_, ?_, ?_, ?_⟩
  · by_cases h1 : (!rx_ready || resetting) = true
    · unfold pci_vtnet_rx
      rw [if_pos h1]
      simp [RxEvent.getchainMaxOk]
    · by_cases h2 : chains.isEmpty = true
      · unfold pci_vtnet_rx
        rw [if_neg h1, if_pos h2]
        simp [RxEvent.getchainMaxOk]
      · unfold pci_vtnet_rx
        rw [if_neg h1, if_neg h2]
        exact rxLoop_getchain_max chains be
  · by_cases hn : 1 ≤ c.nseg ∧ c.nseg ≤ (VTNET_MAXSEGS : Int) <;>
      simp [pci_vtnet_proctx, hn, TxEvent.getchainMaxOk]
  · intro hn
    simp [rxLoop, hn]
  · intro hn
    simp [pci_vtnet_proctx, hn]
  · intro hn
    simp [pci_vtnet_proctx, hn]

/-- C9 witness: a transmit chain reporting 300 segments aborts on the
assert; one reporting 3 segments is processed. -/
theorem datapath_segment_bound_witness :
    pci_vtnet_proctx ⟨0, 300, []⟩ =
      ⟨[TxEvent.getchain VTNET_MAXSEGS 300, TxEvent.assertFailed], true⟩ ∧
    (pci_vtnet_proctx ⟨0, 3, [10, 20, 30]⟩).fatal = false :=
  ⟨(datapath_segment_bound true false [] [] ⟨0, 300, []⟩ 0 1 [] []).2.2.2.1
     (by decide),
   (datapath_segment_bound true false [] [] ⟨0, 3, [10, 20, 30]⟩ 0 1 [] []).2.2.2.2
     (by decide)⟩

theorem storeLE_length (n : Nat) : ∀ (b : List Nat) (o v : Nat),
    (storeLE b o v n).length = b.length := by
  induction n with
  | zero => intro b o v; rfl
  | succ m ih =>
    intro b o v
    rw [storeLE, ih, List.length_set]

theorem storeLE_getElem? (n : Nat) :
    ∀ (b : List Nat) (o v i : Nat), i < b.length →
      (storeLE b o v n)[i]? =
        if o ≤ i ∧ i < o + n then some (v / 256 ^ (i - o) % 256)
        else b[i]? := by
  induction n with
  | zero =>
    intro b o v i hi
    rw [storeLE, if_neg (by omega)]
  | succ m ih =>
    intro b o v i hi
    rw [storeLE, ih _ _ _ _ (by simpa using hi)]
    by_cases h1 : o + 1 ≤ i ∧ i < o + 1 + m
    · rw [if_pos h1, if_pos (by omega)]
      have hio : i - o = (i - (o + 1)) + 1 := by omega
      rw [Nat.div_div_eq_div_mul, hio, pow_succ, Nat.mul_comm]
    · rw [if_neg h1]
      by_cases h2 : i = o
      · subst h2
        rw [List.getElem?_set_eq_of_lt _ hi, if_pos (by omega)]
        simp
      · rw [List.getElem?_set_ne (by omega)]
        rcases Nat.lt_or_ge i o with hlt | hge
        · rw [if_neg (by omega)]
        · rw [if_neg (by omega)]

/-- C8: a config-space write whose window lies inside the 6-byte MAC
range succeeds (returns 0) and stores exactly the little-endian bytes
of `value` at `offset`, leaving every other byte of the 10-byte
register block unchanged; a write at any offset at or past the MAC
range (e.g. offset 8, the status field) succeeds and leaves the whole
block unchanged. -/
theorem cfgwrite_mac_frame (block : List Nat) (offset size value : Nat)
    (hlen : block.length = CONFIG_SIZE) :
    (offset + size ≤ MAC_SIZE →
      ∃ b', pci_vtnet_cfgwrite block offset size value = some b' ∧
        b'.length = CONFIG_SIZE ∧
        ∀ i, i < CONFIG_SIZE →
          b'[i]? = if offset ≤ i ∧ i < offset + size
                   then some (value / 256 ^ (i - offset) % 256)
                   else block[i]?) ∧
    (MAC_SIZE ≤ offset →
      pci_vtnet_cfgwrite block offset size value = some block) := by
  constructor
  · intro hin
    by_cases hoff : offset < MAC_SIZE
    · refine ⟨storeLE block offset value size, ?_, ?_, ?_⟩
      · rw [pci_vtnet_cfgwrite, if_pos hoff, if_pos hin]
      · rw [storeLE_length, hlen]
      · intro i hi
        exact storeLE_getElem? size block offset value i (by omega)
    · have hsz : size = 0 := by
        simp [MAC_SIZE] at hoff hin; omega
      subst hsz
      refine ⟨block, ?_, hlen, ?_⟩
      · rw [pci_vtnet_cfgwrite, if_neg hoff]
      · intro i hi
        rw [if_neg (by omega)]
  · intro hout
    rw [pci_vtnet_cfgwrite, if_neg (by omega)]

/-- C8 witness: writing byte value 0xAB at offset 5 (last MAC byte)
with size 1 changes exactly that byte; a 2-byte write at offset 8
(`max_virtqueue_pairs`/status area) succeeds and changes nothing. -/
theorem cfgwrite_mac_frame_witness :
    (∃ b', pci_vtnet_cfgwrite [1, 2, 3, 4, 5, 6, 7, 8, 9, 10] 5 1 171 =
        some b' ∧
      b'.length = CONFIG_SIZE ∧
      ∀ i, i < CONFIG_SIZE →
        b'[i]? = if 5 ≤ i ∧ i < 5 + 1
                 then some (171 / 256 ^ (i - 5) % 256)
                 else [1, 2, 3, 4, 5, 6, 7, 8, 9, 10][i]?) ∧
    pci_vtnet_cfgwrite [1, 2, 3, 4, 5, 6, 7, 8, 9, 10] 8 2 7 =
      some [1, 2, 3, 4, 5, 6, 7, 8, 9, 10] :=
  ⟨(cfgwrite_mac_frame [1, 2, 3, 4, 5, 6, 7, 8, 9, 10] 5 1 171
      (by decide)).1 (by decide),
   (cfgwrite_mac_frame [1, 2, 3, 4, 5, 6, 7, 8, 9, 10] 8 2 7
      (by decide)).2 (by decide)⟩

/-- C10: a config write starting inside the MAC range aborts on the
hard assertion `assert(offset + size <= sizeof(sc->vsc_config.mac))`
exactly when its window extends past the MAC range — so such a write
is neither stored nor silently ignored, and this assertion is the only
size bound on MAC writes. -/
theorem cfgwrite_mac_overrun_asserts (block : List Nat)
    (offset size value : Nat) (hoff : offset < MAC_SIZE) :
    pci_vtnet_cfgwrite block offset size value = none ↔
      MAC_SIZE < offset + size := by
  rw [pci_vtnet_cfgwrite, if_pos hoff]
  constructor
  · intro h
    by_contra hc
    rw [if_pos (by omega)] at h
    exact Option.noConfusion h
  · intro h
    rw [if_neg (by omega)]

/-- C10 witness: a 2-byte write at offset 5 straddles the end of the
MAC field and aborts the process on the assertion. -/
theorem cfgwrite_mac_overrun_asserts_witness :
    pci_vtnet_cfgwrite [1, 2, 3, 4, 5, 6, 7, 8, 9, 10] 5 2 513 = none :=
  (cfgwrite_mac_overrun_asserts [1, 2, 3, 4, 5, 6, 7, 8, 9, 10] 5 2 513
    (by decide)).mpr (by decide)

end VtNet
